import Mathlib

/-!
Verification of the generation-orchestration and state-reconciliation
pipeline of the ai-detail-page repository, shallowly embedded in Lean.
-/

namespace AiDetailPage

/-- One generated image: an opaque url reference and the prompt that produced it
(mirrors `GeneratedImage` in `types.ts` as used throughout `src`). -/
structure GeneratedImage where
  url : String
  prompt : String
deriving DecidableEq, Repr

/-- Target platform selector (`'coupang' | 'smartstore'`). -/
inductive Platform where
  | coupang
  | smartstore
deriving DecidableEq, Repr

/-- Quality tier selector (`'flash' | 'pro'`). -/
inductive ModelTier where
  | flash
  | pro
deriving DecidableEq, Repr

/-- A pain-point entry of the marketing copy. -/
structure PainPoint where
  title : String
  description : String
deriving DecidableEq, Repr

/-- A marketing feature triple of the generated copy. -/
structure Feature where
  title : String
  subtitle : String
  description : String
deriving DecidableEq, Repr

/-- A usage-scenario pair of the generated copy. -/
structure UsageScenario where
  situation : String
  benefit : String
deriving DecidableEq, Repr

/-- A spec label/value pair. -/
structure SpecPair where
  label : String
  value : String
deriving DecidableEq, Repr

/-- A FAQ question/answer pair. -/
structure FaqPair where
  question : String
  answer : String
deriving DecidableEq, Repr

/-- Structured marketing text (`GeneratedCopy` in `types.ts`). -/
structure GeneratedCopy where
  catchphrase : String
  headline : String
  emotionalBenefit : String
  painPoints : List PainPoint
  solution : String
  features : List Feature
  usageScenarios : List UsageScenario
  specs : List SpecPair
  faq : List FaqPair
deriving DecidableEq, Repr

/-- The user-supplied product record (`ProductData` in `types.ts`). -/
structure ProductData where
  name : String
  description : String
  targetAudience : String
  images : List String
  selectedModel : ModelTier
  platform : Platform
  price : Nat
  discountRate : Nat
  promotionText : String
deriving DecidableEq, Repr

/-- The three-phase lifecycle (`step` field of `AppState` in `App.tsx`). -/
inductive Step where
  | input
  | processing
  | preview
deriving DecidableEq, Repr

/-- The application state held by the `App` component (`AppState` in `types.ts`). -/
structure AppState where
  step : Step
  productData : ProductData
  originalImages : List String
  generatedImages : List GeneratedImage
  mainImageIndex : Nat
  generatedCopy : Option GeneratedCopy
  isEditingImage : Bool
deriving DecidableEq, Repr

/-- Default value produced for a missing list element; used to model the
JavaScript indexing that the code only performs at valid indices. -/
def defaultImage : GeneratedImage := ⟨"", ""⟩

/-- The initial `productData` value of `App.tsx` (`useState` initializer). -/
def initialProductData : ProductData :=
  ⟨"", "", "", [], ModelTier.flash, Platform.coupang, 0, 0, ""⟩

/-- The initial `AppState` value of `App.tsx` (`useState` initializer). -/
def initialAppState : AppState :=
  ⟨Step.input, initialProductData, [], [], 0, none, false⟩

/-- `handleImageReorder`'s list move (`App.tsx` lines 234-236): `splice(fromIndex, 1)`
removes the moved image, `splice(toIndex, 0, movedImage)` reinserts it. -/
def moveImage (l : List GeneratedImage) (fromIdx toIdx : Nat) : List GeneratedImage :=
  (l.eraseIdx fromIdx).insertIdx toIdx (l.getD fromIdx defaultImage)

/-- `handleImageReorder`'s re-derivation of `mainImageIndex` (`App.tsx` lines 239-246). -/
def remapMainIndex (fromIdx toIdx mainIdx : Nat) : Nat :=
  if fromIdx = mainIdx then toIdx
  else if fromIdx < mainIdx ∧ mainIdx ≤ toIdx then mainIdx - 1
  else if mainIdx < fromIdx ∧ toIdx ≤ mainIdx then mainIdx + 1
  else mainIdx

/-- `handleImageReorder` (`App.tsx` lines 232-254). -/
def handleImageReorder (st : AppState) (fromIdx toIdx : Nat) : AppState :=
  { st with
    generatedImages := moveImage st.generatedImages fromIdx toIdx,
    mainImageIndex := remapMainIndex fromIdx toIdx st.mainImageIndex }

/-- `handleImageUpdate` (`App.tsx` lines 223-230): replaces the `url` of the image
at `index`, keeping its previous `prompt`. -/
def handleImageUpdate (st : AppState) (newImageUrl : String) (index : Nat) : AppState :=
  { st with
    generatedImages :=
      st.generatedImages.set index
        { st.generatedImages.getD index defaultImage with url := newImageUrl } }

/-- `handleMainImageSelect` (`App.tsx` lines 308-310). -/
def handleMainImageSelect (st : AppState) (index : Nat) : AppState :=
  { st with mainImageIndex := index }

/-! ## History/Undo-Redo manager (`App.tsx`) -/

/-- The undo/redo bookkeeping of `App.tsx`: `stateHistory`, `currentHistoryIndex`
(initially `-1`, hence an `Int`), and the `isUndoRedoAction` suppression flag. -/
structure UndoState where
  timeline : List AppState
  cursor : Int
  suppress : Bool
deriving DecidableEq, Repr

/-- JavaScript `array.slice(-n)`: the last `n` elements. -/
def sliceLast (n : Nat) (l : List α) : List α := l.drop (l.length - n)

/-- The auto-save effect (`App.tsx` lines 145-163): skips one observation after an
undo/redo, otherwise on a preview state with at least one generated image it
truncates the timeline after the cursor, appends the state, keeps the last 50
entries (`slice(-50)`) and advances the cursor (`min(prev + 1, 49)`). -/
def autoSave (h : UndoState) (s : AppState) : UndoState :=
  if h.suppress then { h with suppress := false }
  else if s.step = Step.preview ∧ 0 < s.generatedImages.length then
    { timeline := sliceLast 50 (h.timeline.take (h.cursor + 1).toNat ++ [s]),
      cursor := min (h.cursor + 1) 49,
      suppress := false }
  else h

/-- The pair observed by the history manager: the current application state and
the undo bookkeeping. -/
structure HistoryApp where
  current : AppState
  hist : UndoState
deriving DecidableEq, Repr

/-- The empty starting point: no snapshots, cursor `-1`, no suppression. -/
def emptyHistoryApp : HistoryApp := ⟨initialAppState, ⟨[], -1, false⟩⟩

/-- One preview-state edit: the state changes to `s` and the auto-save effect
observes it. -/
def editStep (a : HistoryApp) (s : AppState) : HistoryApp :=
  ⟨s, autoSave a.hist s⟩

/-- `handleUndo` (`App.tsx` lines 289-296) followed by the auto-save observation of
the restored state, which the suppression flag swallows. No-op when the cursor
is not positive. -/
def undoStep (a : HistoryApp) : HistoryApp :=
  if 0 < a.hist.cursor then
    let newIndex := a.hist.cursor - 1
    let restored := a.hist.timeline.getD newIndex.toNat a.current
    ⟨restored, autoSave { a.hist with cursor := newIndex, suppress := true } restored⟩
  else a

/-- `handleRedo` (`App.tsx` lines 299-306) followed by the auto-save observation of
the restored state. No-op when the cursor is already at the tail. -/
def redoStep (a : HistoryApp) : HistoryApp :=
  if a.hist.cursor < (a.hist.timeline.length : Int) - 1 then
    let newIndex := a.hist.cursor + 1
    let restored := a.hist.timeline.getD newIndex.toNat a.current
    ⟨restored, autoSave { a.hist with cursor := newIndex, suppress := true } restored⟩
  else a

/-! ## Snapshot codec for shareable links (`App.tsx`) -/

/-- Is `needle` a contiguous run of `hay`? Executable substring test standing in
for JavaScript `String.prototype.includes`. -/
def isInfixOfList (needle : List Char) : List Char → Bool
  | [] => needle.isEmpty
  | c :: rest => needle.isPrefixOf (c :: rest) || isInfixOfList needle rest

/-- JavaScript `s.includes(pattern)`. -/
def strContains (s pattern : String) : Bool := isInfixOfList pattern.toList s.toList

/-- ASCII lower-casing of one character (kernel-reducible stand-in for the
character mapping behind `toLowerCase`). -/
def charLower (c : Char) : Char :=
  if 'A' ≤ c ∧ c ≤ 'Z' then Char.ofNat (c.toNat + 32) else c

/-- JavaScript `s.toLowerCase()`. -/
def strLower (s : String) : String := String.mk (s.toList.map charLower)

/-- Whitespace recognised by `trim`. -/
def wsChar (c : Char) : Bool := c == ' ' || c == '\t' || c == '\n' || c == '\r'

/-- Drops leading and trailing whitespace. -/
def trimList (l : List Char) : List Char :=
  ((l.dropWhile wsChar).reverse.dropWhile wsChar).reverse

/-- JavaScript `s.trim()`. -/
def strTrim (s : String) : String := String.mk (trimList s.toList)

/-- Splits at newline characters, keeping empty segments (`s.split('\n')`). -/
def splitLinesAux (cur : List Char) : List Char → List (List Char)
  | [] => [cur.reverse]
  | c :: rest =>
    if c == '\n' then cur.reverse :: splitLinesAux [] rest
    else splitLinesAux (c :: cur) rest

/-- JavaScript `s.split('\n')`. -/
def strSplitLines (s : String) : List String :=
  (splitLinesAux [] s.toList).map String.mk

/-- JavaScript `s.startsWith(p)`. -/
def strStartsWith (s p : String) : Bool := p.toList.isPrefixOf s.toList

/-- Does the url hold inline-encoded image data (`url.startsWith('data:')`)? -/
def isInlineData (url : String) : Bool := strStartsWith url "data:"

/-- The JSON object built by `generateShareLink` (`App.tsx` lines 370-380) before
base64/URL encoding; the encoding transport (`btoa`, `encodeURIComponent`) is a
browser API outside the repository and is modelled as the identity on this record. -/
structure ShareData where
  productData : ProductData
  copy : Option GeneratedCopy
  images : List String
  mainImageIndex : Nat
  originalImages : List String
deriving DecidableEq, Repr

/-- `generateShareLink`'s state reduction (`App.tsx` lines 370-380): inline-data
image urls are dropped, at most 4 image urls are kept, and the reference images
are filtered down to externally hosted urls. -/
def generateShareData (st : AppState) : ShareData :=
  { productData := st.productData,
    copy := st.generatedCopy,
    images :=
      ((st.generatedImages.filter (fun img => !(isInlineData img.url))).take 4).map
        GeneratedImage.url,
    mainImageIndex := st.mainImageIndex,
    originalImages := st.productData.images.filter (fun u => !(isInlineData u)) }

/-- `loadFromShareLink`'s state reconstruction (`App.tsx` lines 410-424): a
preview-phase state whose images carry empty prompts and whose `productData`
images are replaced by the shared external reference urls. -/
def loadFromShareData (d : ShareData) : AppState :=
  { step := Step.preview,
    productData := { d.productData with images := d.originalImages },
    originalImages := d.originalImages,
    generatedImages := d.images.map (fun url => ⟨url, ""⟩),
    mainImageIndex := d.mainImageIndex,
    generatedCopy := d.copy,
    isEditingImage := false }

/-! ## Slot Allocator (`DetailPagePreview.tsx`) -/

/-- One allocated page slot: the pool image and its original pool index
(`getNextImage` returns `{ data, index }`). -/
structure AllocSlot where
  data : GeneratedImage
  index : Nat
deriving DecidableEq, Repr

/-- `getNextImage` (`DetailPagePreview.tsx` lines 641-646): reads the pool at
`cursor % totalImages` and advances the cursor. -/
def getNextImage (images : List GeneratedImage) (cursor : Nat) : AllocSlot × Nat :=
  let index := cursor % images.length
  (⟨images.getD index defaultImage, index⟩, cursor + 1)

/-- `n` successive `getNextImage` calls threading the cursor; models both
`features.map(() => getNextImage())` and the `remainingImages` loop. -/
def takeNextImages (images : List GeneratedImage) (cursor : Nat) : Nat → List AllocSlot × Nat
  | 0 => ([], cursor)
  | n + 1 =>
    let r := getNextImage images cursor
    let rest := takeNextImages images r.2 n
    (r.1 :: rest.1, rest.2)

/-- The named page regions computed by `DetailPagePreview` (lines 648-678). -/
structure Allocation where
  promotionImage : Option AllocSlot
  heroImage : AllocSlot
  lifestyleImage : AllocSlot
  featureImages : List AllocSlot
  usageContextImage : AllocSlot
  descriptionExtraImages : List AllocSlot
  detailViewImages : List AllocSlot
deriving DecidableEq, Repr

/-- The slot allocation of `DetailPagePreview.tsx` (lines 635-678): optional
promotion slot, hero, lifestyle, one slot per copy feature, usage context, then
the remaining pool images, split so that `descriptionExtraImages` receives the
first `remaining - min(3, remaining)` of them and `detailViewImages` the rest.
It is a plain function of the pool, the feature list of the copy, and the
promotion flag (`hasPromotion`). -/
def allocateSlots (images : List GeneratedImage) (hasPromotion : Bool)
    (features : List Feature) : Allocation :=
  let c0 : Nat := 0
  let promo : Option AllocSlot × Nat :=
    if hasPromotion then
      let r := getNextImage images c0
      (some r.1, r.2)
    else (none, c0)
  let hero := getNextImage images promo.2
  let life := getNextImage images hero.2
  let feat := takeNextImages images life.2 features.length
  let usage := getNextImage images feat.2
  let remainingCount := images.length - usage.2
  let rem := takeNextImages images usage.2 remainingCount
  let detailViewImageCount := min 3 rem.1.length
  let descriptionExtraCount := rem.1.length - detailViewImageCount
  { promotionImage := promo.1
    heroImage := hero.1
    lifestyleImage := life.1
    featureImages := feat.1
    usageContextImage := usage.1
    descriptionExtraImages := rem.1.take descriptionExtraCount
    detailViewImages := rem.1.drop descriptionExtraCount }

/-- The demanded region slots in their fixed allocation order: optional promotion,
hero, lifestyle, per-feature slots, usage context. -/
def demandSlots (a : Allocation) : List AllocSlot :=
  a.promotionImage.toList ++ [a.heroImage, a.lifestyleImage] ++ a.featureImages ++
    [a.usageContextImage]

/-- Every slot the allocator produces, demanded slots first, then the split
remaining pool images. -/
def allSlots (a : Allocation) : List AllocSlot :=
  demandSlots a ++ a.descriptionExtraImages ++ a.detailViewImages

/-! ## Provider gateway and generation pipeline (`geminiService.ts`)

Network requests are represented by an explicit event trace; the responses of
the external providers are supplied by a `NetOracle` parameter, so that every
definition stays a pure function of its inputs. -/

/-- A network request issued by the gateway (one entry per `fetch`). -/
inductive NetCall where
  | groqChat
  | imgbbUpload
  | nanoCreate
  | nanoPoll
deriving DecidableEq, Repr

/-- The credential store visible to the gateway: the user-entered key in
`localStorage` plus the build-time environment variables. -/
structure Env where
  storedNanoKey : Option String
  envNanoKey : Option String
  envGroqKey : Option String
  envImgbbKey : Option String
deriving DecidableEq, Repr

/-- Poll outcome of a Nano Banana job (`checkNanoBananaTaskStatus` result). -/
inductive PollStatus where
  | success (urls : List String)
  | failed (msg : String)
  | waiting
deriving DecidableEq, Repr

/-- A task-creation response before the gateway classifies its error message. -/
inductive NanoResponse where
  | ok (taskId : String)
  | err (msg : String)
deriving DecidableEq, Repr

/-- The structured input of one Nano Banana job. -/
structure NanoInput where
  prompt : String
  imageUrls : List String
  aspectRatio : String
deriving DecidableEq, Repr

/-- Provider responses, parsing outcomes and random salts, abstracted as an
oracle so the pipeline is a pure function. -/
structure NetOracle where
  groq : String → String → String → Except String String
  imgbb : String → String → Except String String
  nano : String → String → NanoInput → NanoResponse
  nanoPoll : String → String → Nat → PollStatus
  parseCopy : String → Except String GeneratedCopy
  seed : Nat → Nat → String

/-- The missing-credential error message of `getGroqApiKey`
(`geminiService.ts` lines 195-204). -/
def groqMissingKeyMsg : String :=
  "Groq API 키가 설정되지 않았습니다. VITE_GROQ_API_KEY 환경변수를 설정해주세요."

/-- The missing-credential error message of `getNanoBananaApiKey`
(`geminiService.ts` lines 9-23). -/
def nanoMissingKeyMsg : String :=
  "API 키가 설정되지 않았습니다. 설정 메뉴에서 Nano Banana API 키를 입력해주세요."

/-- The missing-credential error message of `getImgbbApiKey`. -/
def imgbbMissingKeyMsg : String :=
  "imgbb API 키가 설정되지 않았습니다. VITE_IMGBB_API_KEY 환경변수를 설정해주세요."

/-- The distinguished credits-exhausted error (`CREDITS_INSUFFICIENT`). -/
def creditsMsg : String := "CREDITS_INSUFFICIENT"

/-- The generic failure `generateMarketingCopy` rethrows on any error. -/
def copyGenFailMsg : String := "마케팅 카피 생성에 실패했습니다."

/-- The polling-ceiling timeout error of `waitForNanoBananaTask`. -/
def pollTimeoutMsg : String := "이미지 생성 시간 초과 (120초)"

/-- The unsupported-payload error of `uploadImageToImgbb` for SVG placeholders. -/
def svgUploadMsg : String := "SVG 이미지는 업로드할 수 없습니다."

/-- `getGroqApiKey` (`geminiService.ts` lines 195-204): environment only. -/
def getGroqApiKey (env : Env) : Except String String :=
  match env.envGroqKey with
  | some k => Except.ok k
  | none => Except.error groqMissingKeyMsg

/-- `getNanoBananaApiKey` (`geminiService.ts` lines 9-23): `localStorage` first,
then the environment. -/
def getNanoBananaApiKey (env : Env) : Except String String :=
  match env.storedNanoKey with
  | some k => Except.ok k
  | none =>
    match env.envNanoKey with
    | some k => Except.ok k
    | none => Except.error nanoMissingKeyMsg

/-- `getImgbbApiKey` (inside `uploadImageToImgbb`): environment only. -/
def getImgbbApiKey (env : Env) : Except String String :=
  match env.envImgbbKey with
  | some k => Except.ok k
  | none => Except.error imgbbMissingKeyMsg

/-- `generateTextWithGroq` (`geminiService.ts` lines 266-316): key lookup happens
before the single network request; HTTP failures and empty completions are the
oracle's error outcomes. -/
def generateTextWithGroq (env : Env) (o : NetOracle) (systemPrompt userPrompt : String) :
    Except String String × List NetCall :=
  match getGroqApiKey env with
  | Except.error e => (Except.error e, [])
  | Except.ok k => (o.groq k systemPrompt userPrompt, [NetCall.groqChat])

/-- Platform name string as used in prompt templates. -/
def platformName : Platform → String
  | Platform.coupang => "coupang"
  | Platform.smartstore => "smartstore"

/-- System instruction of `generateMarketingCopy`; the long Korean template does
not influence control flow and is abbreviated. -/
def copySystemPrompt (data : ProductData) : String :=
  "marketing-copy system instructions for " ++ platformName data.platform

/-- User instruction of `generateMarketingCopy`; abbreviated as above. -/
def copyUserPrompt (data : ProductData) : String :=
  "marketing-copy user instructions for " ++ data.name

/-- `generateMarketingCopy` (`geminiService.ts` lines 612-678): one text
completion, then JSON extraction; the surrounding `try`/`catch` rethrows every
failure as the generic `copyGenFailMsg`. -/
def generateMarketingCopy (env : Env) (o : NetOracle) (data : ProductData) :
    Except String GeneratedCopy × List NetCall :=
  let r := generateTextWithGroq env o (copySystemPrompt data) (copyUserPrompt data)
  match r.1 with
  | Except.ok text =>
    match o.parseCopy text with
    | Except.ok c => (Except.ok c, r.2)
    | Except.error _ => (Except.error copyGenFailMsg, r.2)
  | Except.error _ => (Except.error copyGenFailMsg, r.2)

/-- `uploadImageToImgbb` (`geminiService.ts` lines 143-189): pass-through for
already-external urls, rejection of SVG placeholders, key lookup before the
upload request. -/
def uploadImageToImgbb (env : Env) (o : NetOracle) (img : String) :
    Except String String × List NetCall :=
  if strStartsWith img "http" then (Except.ok img, [])
  else if strContains img "image/svg+xml" then (Except.error svgUploadMsg, [])
  else
    match getImgbbApiKey env with
    | Except.error e => (Except.error e, [])
    | Except.ok k => (o.imgbb k img, [NetCall.imgbbUpload])

/-- The error classification of `createNanoBananaTask` (`geminiService.ts`
lines 43-72): quota/credit wording becomes the distinguished
`CREDITS_INSUFFICIENT`, anything else a generic provider error. -/
def classifyNanoError (msg : String) : String :=
  let m := strLower msg
  if strContains m "insufficient" || strContains m "credits" ||
      strContains m "top up" || strContains m "credit" then creditsMsg
  else "Nano Banana API 오류: " ++ msg

/-- `createNanoBananaTask` (`geminiService.ts` lines 26-75): key lookup, one
request, error classification. -/
def createNanoBananaTask (env : Env) (o : NetOracle) (model : String) (input : NanoInput) :
    Except String String × List NetCall :=
  match getNanoBananaApiKey env with
  | Except.error e => (Except.error e, [])
  | Except.ok k =>
    match o.nano k model input with
    | NanoResponse.ok taskId => (Except.ok taskId, [NetCall.nanoCreate])
    | NanoResponse.err m => (Except.error (classifyNanoError m), [NetCall.nanoCreate])

/-- `waitForNanoBananaTask` (`geminiService.ts` lines 120-140): up to 60 polls
(each a key lookup plus one status request); exhausting the ceiling raises the
distinct timeout error. -/
def waitForNanoBananaTask (env : Env) (o : NetOracle) (taskId : String) :
    Nat → Except String (List String) × List NetCall
  | 0 => (Except.error pollTimeoutMsg, [])
  | n + 1 =>
    match getNanoBananaApiKey env with
    | Except.error e => (Except.error e, [])
    | Except.ok k =>
      match o.nanoPoll k taskId n with
      | PollStatus.success urls => (Except.ok urls, [NetCall.nanoPoll])
      | PollStatus.failed m => (Except.error m, [NetCall.nanoPoll])
      | PollStatus.waiting =>
        let r := waitForNanoBananaTask env o taskId n
        (r.1, NetCall.nanoPoll :: r.2)

/-- `getFallbackImage` (`geminiService.ts` lines 681-691): a fixed inline SVG
placeholder data URI; the `btoa` payload of the fixed markup is opaque here. -/
def getFallbackImage : String := "data:image/svg+xml;base64,IMAGE-GEN-FAILED-PLACEHOLDER"

/-- Scene-prompt template of the pro model branch (abbreviated; the wording does
not influence control flow). -/
def proTaskPrompt (scenePrompt : String) : String :=
  "PRODUCT PHOTOGRAPHY TASK (pro): " ++ scenePrompt

/-- Scene-prompt template of the no-reference-image fallback branch. -/
def plainTaskPrompt (scenePrompt : String) : String :=
  "PRODUCT PHOTOGRAPHY TASK (plain): " ++ scenePrompt

/-- Scene-prompt template of the reference-image edit branch. -/
def editTaskPrompt (scenePrompt : String) : String :=
  "PRODUCT PHOTOGRAPHY TASK (edit): " ++ scenePrompt

/-- Creates one job, waits for it, and falls back to the placeholder when the
result list is empty (`resultUrls[0] || getFallbackImage()`). -/
def runNanoTask (env : Env) (o : NetOracle) (model : String) (input : NanoInput) :
    Except String String × List NetCall :=
  let c := createNanoBananaTask env o model input
  match c.1 with
  | Except.error e => (Except.error e, c.2)
  | Except.ok taskId =>
    let w := waitForNanoBananaTask env o taskId 60
    match w.1 with
    | Except.error e => (Except.error e, c.2 ++ w.2)
    | Except.ok urls => (Except.ok (urls.headD getFallbackImage), c.2 ++ w.2)

/-- `generateSingleScene` (`geminiService.ts` lines 693-800): uploads up to 8
reference images (individual failures become `null` and are filtered out), then
dispatches to the pro model, the plain model (no usable reference image), or
the edit model. -/
def generateSingleScene (env : Env) (o : NetOracle) (modelName : String)
    (referenceImages : List String) (scenePrompt aspectRatio : String) :
    Except String String × List NetCall :=
  let isProModel := strContains (strLower modelName) "pro"
  let uploads := (referenceImages.take 8).map (fun img => uploadImageToImgbb env o img)
  let imageUrls := uploads.filterMap (fun r => r.1.toOption)
  let uploadTrace := (uploads.map Prod.snd).flatten
  let task :=
    if isProModel then
      runNanoTask env o "nano-banana-pro" ⟨proTaskPrompt scenePrompt, imageUrls, aspectRatio⟩
    else if imageUrls.isEmpty then
      runNanoTask env o "google/nano-banana" ⟨plainTaskPrompt scenePrompt, [], aspectRatio⟩
    else
      runNanoTask env o "google/nano-banana-edit" ⟨editTaskPrompt scenePrompt, imageUrls, aspectRatio⟩
  (task.1, uploadTrace ++ task.2)

/-- `getModelName(selection, 'image')` (`geminiService.ts` lines 378-383). -/
def getModelName : ModelTier → String
  | ModelTier.pro => "gemini-3-pro-image-preview"
  | ModelTier.flash => "gemini-2.5-flash-image"

/-- The per-attempt uniqueness token appended to the prompt (`geminiService.ts`
line 903); the timestamp/random salt comes from the oracle. -/
def uniquePrompt (o : NetOracle) (prompt : String) (index attempts : Nat) : String :=
  prompt ++ " [Unique variation: style-" ++ toString index ++ ", attempt-" ++
    toString attempts ++ ", seed-" ++ o.seed index attempts ++ "]"

/-- The rate-limit detection of `generateWithRetry` (`geminiService.ts` line 915). -/
def isRateLimitMsg (msg : String) : Bool :=
  strContains msg "429" || strContains msg "Resource has been exhausted"

/-- The retry loop of `generateWithRetry` (`geminiService.ts` lines 896-940),
generic in the underlying per-attempt generator. Returns the number of
generator invocations together with the result and the network trace. The
`CREDITS_INSUFFICIENT` error is rethrown immediately; any other failure retries
(after a backoff delay, invisible here) while fewer than 3 attempts were made,
and the placeholder image with the original prompt is returned after the third
failure. `fuel` is `maxAttempts - attempts`, so the loop-exit case is the
unreachable final `return`. -/
def retryLoop (gen : Nat → Except String String × List NetCall) (prompt : String) :
    Nat → Nat → Nat × Except String GeneratedImage × List NetCall
  | attempts, 0 => (attempts, Except.ok ⟨getFallbackImage, prompt⟩, [])
  | attempts, fuel + 1 =>
    let r := gen attempts
    match r.1 with
    | Except.ok url => (attempts + 1, Except.ok ⟨url, prompt⟩, r.2)
    | Except.error e =>
      let a := attempts + 1
      if e = creditsMsg then (a, Except.error creditsMsg, r.2)
      else if isRateLimitMsg e ∧ a < 3 then
        let rest := retryLoop gen prompt a fuel
        (rest.1, rest.2.1, r.2 ++ rest.2.2)
      else if 3 ≤ a then (a, Except.ok ⟨getFallbackImage, prompt⟩, r.2)
      else
        let rest := retryLoop gen prompt a fuel
        (rest.1, rest.2.1, r.2 ++ rest.2.2)

/-- `generateWithRetry` (`geminiService.ts` lines 896-940) as used by the batch:
the underlying generator is `generateSingleScene` on the uniquified prompt,
with aspect ratio 1:1 for the first request and 16:9 otherwise. -/
def generateWithRetry (env : Env) (o : NetOracle) (data : ProductData)
    (prompt : String) (index : Nat) : Except String GeneratedImage × List NetCall :=
  let modelName := getModelName data.selectedModel
  let gen := fun attempts =>
    generateSingleScene env o modelName data.images (uniquePrompt o prompt index attempts)
      (if index = 0 then "1:1" else "16:9")
  let r := retryLoop gen prompt 0 3
  (r.2.1, r.2.2)

/-! ## Batch scheduler (`geminiService.ts` lines 942-960) -/

/-- The chunking of the batched execution loop: `slice(i, i + 12)` for
`i = 0, 12, 24, ...` (`BATCH_SIZE = 12`). -/
def chunkList12 (l : List α) : List (List α) :=
  match l with
  | [] => []
  | a :: rest => ((a :: rest).take 12) :: chunkList12 ((a :: rest).drop 12)
termination_by l.length
decreasing_by simp [List.length_drop]; omega

/-- `Promise.all` value semantics: the list of results if every item resolved,
otherwise the first rejection. -/
def promiseAllExcept : List (Except ε α) → Except ε (List α)
  | [] => Except.ok []
  | r :: rs =>
    match r with
    | Except.error e => Except.error e
    | Except.ok a =>
      match promiseAllExcept rs with
      | Except.error e => Except.error e
      | Except.ok as => Except.ok (a :: as)

/-- Launches every item of one chunk (`chunk.map((prompt, idx) =>
generateWithRetry(prompt, i + idx))`); all items run, so all traces occur. -/
def runChunkItems (gen : Nat → String → Except ε α × List NetCall) (base : Nat) :
    List String → List (Except ε α × List NetCall)
  | [] => []
  | p :: ps => gen base p :: runChunkItems gen (base + 1) ps

/-- The chunk loop of `generateVariedScenes`: chunks run strictly one after the
other, results are concatenated in original order, and a rejected chunk stops
the loop before any later chunk starts. -/
def runChunksFrom (gen : Nat → String → Except ε α × List NetCall) :
    Nat → List (List String) → Except ε (List α) × List NetCall
  | _, [] => (Except.ok [], [])
  | base, c :: cs =>
    let items := runChunkItems gen base c
    let r := promiseAllExcept (items.map Prod.fst)
    let t := (items.map Prod.snd).flatten
    match r with
    | Except.error e => (Except.error e, t)
    | Except.ok rs =>
      let rest := runChunksFrom gen (base + c.length) cs
      (rest.1.map (fun xs => rs ++ xs), t ++ rest.2)

/-- The batch scheduler: fan out over chunks of at most 12, preserving order. -/
def runBatched (gen : Nat → String → Except ε α × List NetCall) (prompts : List String) :
    Except ε (List α) × List NetCall :=
  runChunksFrom gen 0 (chunkList12 prompts)

/-- `Promise.all` completion-order model: starting from an unresolved array of
`n` slots, the items complete in the order listed in `order`, each writing its
own result at its own index. -/
def completeInOrder (n : Nat) (res : Nat → α) (order : List Nat) : List (Option α) :=
  order.foldl (fun acc j => acc.set j (some (res j))) (List.replicate n none)

/-! ## Scene-prompt construction and the submission pipeline -/

/-- `hasPromotion` (`DetailPagePreview.tsx` line 635) and the promotion check of
`generateVariedScenes` (`geminiService.ts` line 890): a promotion text was
supplied and is not only whitespace. -/
def hasPromotionText (data : ProductData) : Bool :=
  0 < (strTrim data.promotionText).length

/-- The prepended promotion banner prompt (`geminiService.ts` line 891,
abbreviated wording). -/
def promoPrompt (data : ProductData) : String :=
  "Promotional Event Banner: visual representation of " ++ data.promotionText ++
    ", sale atmosphere, commercial advertisement background."

/-- The fixed fallback pool of generic scene prompts (`geminiService.ts`
lines 869-885), paraphrased: only the entry count and order matter to the
pipeline. -/
def fallbackPool : List String :=
  ["HERO SHOT: high-end commercial advertising photo, cinematic lighting",
   "Lifestyle shot: product in a warm inviting living space, soft lighting",
   "Close-up detail shot: texture, material and build quality, macro",
   "Product in use: a hand naturally holding and using the product",
   "Dynamic angle: creative angle showing shape and silhouette",
   "Flat lay composition: product arranged on a solid colored surface",
   "Scale reference: product next to common items to show size",
   "Back or side view: ports, connections and rear design details",
   "With packaging: product standing next to its premium packaging box",
   "Product thumbnail: pure white background, product centered",
   "Outdoor context: product in natural sunlight, park or street",
   "Workspace setup: product on a neat desk with laptop and coffee",
   "Home setting: product on a kitchen counter or shelf",
   "Dark mode style: product on a dark background with rim lighting"]

/-- Matches the `/^\d+[\.\)]/` numbering filter: digits after the first one. -/
def numberedTail : List Char → Bool
  | [] => false
  | c :: rest => if c.isDigit then numberedTail rest else (c == '.' || c == ')')

/-- Does the line start with a list numbering such as `1.` or `2)`? -/
def looksNumbered (line : String) : Bool :=
  match line.toList with
  | [] => false
  | c :: rest => if c.isDigit then numberedTail rest else false

/-- System instruction of `generateCustomScenePrompts` (abbreviated). -/
def scenesSystemPrompt (count : Nat) : String :=
  "scene-prompt system instructions for " ++ toString count ++ " scenes"

/-- User instruction of `generateCustomScenePrompts` (abbreviated). -/
def scenesUserPrompt (data : ProductData) : String :=
  "scene-prompt user instructions for " ++ data.name ++ " on " ++ platformName data.platform

/-- `generateCustomScenePrompts` (`geminiService.ts` lines 808-846): one text
completion split into lines, trimmed, with numbered and short lines removed,
truncated to `count`; any failure is caught and yields the empty list. -/
def generateCustomScenePrompts (env : Env) (o : NetOracle) (data : ProductData)
    (count : Nat) : List String × List NetCall :=
  let r := generateTextWithGroq env o (scenesSystemPrompt count) (scenesUserPrompt data)
  match r.1 with
  | Except.error _ => ([], r.2)
  | Except.ok text =>
    let prompts := ((strSplitLines text).map strTrim).filter
      (fun line => (0 < line.length && !(looksNumbered line)) && 10 < line.length)
    (prompts.take count, r.2)

/-- `generateVariedScenes` (`geminiService.ts` lines 848-960): platform-dependent
scene count, custom prompts with fixed fallback pool, optional prepended
promotion prompt, then the batched retry executor. -/
def generateVariedScenes (env : Env) (o : NetOracle) (data : ProductData) :
    Except String (List GeneratedImage) × List NetCall :=
  let count := if data.platform = Platform.coupang then 12 else 9
  let custom := generateCustomScenePrompts env o data count
  let base := if 0 < custom.1.length then custom.1.take count else fallbackPool.take count
  let selected := if hasPromotionText data then promoPrompt data :: base else base
  let batch := runBatched (fun i p => generateWithRetry env o data p i) selected
  (batch.1, custom.2 ++ batch.2)

/-- `handleInputSubmit`'s parallel pipeline (`App.tsx` lines 188-204):
`Promise.all([generateMarketingCopy, generateVariedScenes])`; both branches
run (and both traces occur); the combined promise resolves only if both
resolve. In the credential-free scenario settled below only the copy branch can
reject, so giving its rejection priority is faithful. -/
def handleInputSubmitPipeline (env : Env) (o : NetOracle) (data : ProductData) :
    Except String (GeneratedCopy × List GeneratedImage) × List NetCall :=
  let rc := generateMarketingCopy env o data
  let rs := generateVariedScenes env o data
  let result : Except String (GeneratedCopy × List GeneratedImage) :=
    match rc.1 with
    | Except.error e => Except.error e
    | Except.ok c =>
      match rs.1 with
      | Except.error e => Except.error e
      | Except.ok imgs => Except.ok (c, imgs)
  (result, rc.2 ++ rs.2)

/-- The credential-free environment: nothing in `localStorage`, nothing in the
build environment. -/
def emptyEnv : Env := ⟨none, none, none, none⟩

/-- A concrete oracle used to instantiate theorems at closed inputs. -/
def exampleOracle : NetOracle :=
  { groq := fun _ _ _ => Except.error "HTTP 500",
    imgbb := fun _ _ => Except.error "upload failed",
    nano := fun _ _ _ => NanoResponse.err "server error",
    nanoPoll := fun _ _ _ => PollStatus.waiting,
    parseCopy := fun _ => Except.error "parse failure",
    seed := fun _ _ => "seed" }

/-- A concrete pool of `n` generated images used to instantiate theorems. -/
def examplePool (n : Nat) : List GeneratedImage :=
  (List.range n).map (fun _ => ⟨"https://pool.png", "p"⟩)

/-- A concrete feature list of length `n` used to instantiate theorems. -/
def exampleFeatures (n : Nat) : List Feature :=
  (List.range n).map (fun _ => ⟨"t", "s", "d"⟩)

/-- A concrete preview-phase state with one externally hosted image, used to
instantiate theorems. -/
def previewState (url : String) : AppState :=
  { initialAppState with step := Step.preview, generatedImages := [⟨url, "p"⟩] }

instance {ε α : Type} [DecidableEq ε] [DecidableEq α] : DecidableEq (Except ε α) := fun a b =>
  match a, b with
  | Except.ok x, Except.ok y =>
    if h : x = y then isTrue (by rw [h]) else isFalse (by intro hc; cases hc; exact h rfl)
  | Except.error x, Except.error y =>
    if h : x = y then isTrue (by rw [h]) else isFalse (by intro hc; cases hc; exact h rfl)
  | Except.ok _, Except.error _ => isFalse (by intro hc; cases hc)
  | Except.error _, Except.ok _ => isFalse (by intro hc; cases hc)

/-! ## General helper lemmas -/

theorem getD_eq_getElemD (l : List α) (n : Nat) (d : α) : l.getD n d = (l[n]?).getD d :=
  List.getD_eq_getElem?_getD l n d

theorem sliceLast_length (n : Nat) (l : List α) : (sliceLast n l).length = min l.length n := by
  simp [sliceLast]; omega

/-! ## Claim theorems -/

/-- C10: for every in-range index `i` and url `u`, `handleImageUpdate` changes only
the `url` field of generated image `i` to `u`; the list length, the prompt of
image `i`, every other image, `mainImageIndex`, the phase, the copy and the
remaining state fields are unchanged. -/
theorem image_update_frame (st : AppState) (u : String) (i : Nat)
    (hi : i < st.generatedImages.length) :
    ((handleImageUpdate st u i).generatedImages.length = st.generatedImages.length) ∧
    ((handleImageUpdate st u i).generatedImages[i]? =
      some ⟨u, (st.generatedImages.getD i defaultImage).prompt⟩) ∧
    (∀ j, j ≠ i →
      (handleImageUpdate st u i).generatedImages[j]? = st.generatedImages[j]?) ∧
    (handleImageUpdate st u i).mainImageIndex = st.mainImageIndex ∧
    (handleImageUpdate st u i).step = st.step ∧
    (handleImageUpdate st u i).generatedCopy = st.generatedCopy ∧
    (handleImageUpdate st u i).productData = st.productData ∧
    (handleImageUpdate st u i).originalImages = st.originalImages ∧
    (handleImageUpdate st u i).isEditingImage = st.isEditingImage := by
  unfold handleImageUpdate
  refine ⟨List.length_set _ _ _, ?_, ?_, rfl, rfl, rfl, rfl, rfl, rfl⟩
  · exact List.getElem?_set_eq_of_lt _ hi
  · intro j hj
    exact List.getElem?_set_ne (fun h => hj h.symm)

/-- Witness for C10 at a concrete two-image state. -/
theorem image_update_frame_witness :
    (0 : Nat) < (2 : Nat) ∧
    (handleImageUpdate
        { initialAppState with
          generatedImages := [⟨"https://a.png", "pa"⟩, ⟨"https://b.png", "pb"⟩] }
        "https://new.png" 0).generatedImages[0]? = some ⟨"https://new.png", "pa"⟩ := by
  refine ⟨by decide, ?_⟩
  have h := image_update_frame
    { initialAppState with
      generatedImages := [⟨"https://a.png", "pa"⟩, ⟨"https://b.png", "pb"⟩] }
    "https://new.png" 0 (by decide)
  exact h.2.1

/-- C7: encoding a share snapshot and immediately decoding it reproduces the
product request with only its heavy inline image list replaced by the
externally hosted subset, the same generated copy, the same `mainImageIndex`,
and an image list of at most 4 entries none of which is inline data. -/
theorem share_codec_round_trip (st : AppState) :
    (loadFromShareData (generateShareData st)).productData =
      { st.productData with
        images := st.productData.images.filter (fun u => !(isInlineData u)) } ∧
    (loadFromShareData (generateShareData st)).generatedCopy = st.generatedCopy ∧
    (loadFromShareData (generateShareData st)).mainImageIndex = st.mainImageIndex ∧
    (loadFromShareData (generateShareData st)).generatedImages.length ≤ 4 ∧
    ∀ img ∈ (loadFromShareData (generateShareData st)).generatedImages,
      isInlineData img.url = false := by
  refine ⟨rfl, rfl, rfl, ?_, ?_⟩
  · simp [loadFromShareData, generateShareData]
  · intro img hmem
    simp only [loadFromShareData, generateShareData, List.mem_map] at hmem
    obtain ⟨url, hurl, rfl⟩ := hmem
    obtain ⟨img2, himg2, rfl⟩ := hurl
    have := List.of_mem_filter (List.take_subset _ _ himg2)
    simpa using this

/-- Witness for C7: decoding the encoded share snapshot of a concrete preview
state keeps its single externally hosted image non-inline. -/
theorem share_codec_round_trip_witness :
    (loadFromShareData (generateShareData (previewState "https://a.png"))).mainImageIndex =
      (previewState "https://a.png").mainImageIndex ∧
    isInlineData (GeneratedImage.mk "https://a.png" "").url = false :=
  ⟨(share_codec_round_trip (previewState "https://a.png")).2.2.1,
   (share_codec_round_trip (previewState "https://a.png")).2.2.2.2
     ⟨"https://a.png", ""⟩ (by decide)⟩

/-- C8 (failing-input evaluation): a reachable preview state with five externally
hosted images and `mainImageIndex = 4` round-trips through the share codec into
a state whose image list has 4 entries but whose `mainImageIndex` is still 4,
violating the index-validity invariant. -/
theorem share_link_breaks_main_index_invariant :
    ((loadFromShareData (generateShareData
        { initialAppState with
          step := Step.preview,
          generatedImages :=
            [⟨"https://a.png", "p1"⟩, ⟨"https://b.png", "p2"⟩, ⟨"https://c.png", "p3"⟩,
             ⟨"https://d.png", "p4"⟩, ⟨"https://e.png", "p5"⟩],
          mainImageIndex := 4 })).generatedImages.length = 4) ∧
    ((loadFromShareData (generateShareData
        { initialAppState with
          step := Step.preview,
          generatedImages :=
            [⟨"https://a.png", "p1"⟩, ⟨"https://b.png", "p2"⟩, ⟨"https://c.png", "p3"⟩,
             ⟨"https://d.png", "p4"⟩, ⟨"https://e.png", "p5"⟩],
          mainImageIndex := 4 })).mainImageIndex = 4) ∧
    ¬ ((loadFromShareData (generateShareData
        { initialAppState with
          step := Step.preview,
          generatedImages :=
            [⟨"https://a.png", "p1"⟩, ⟨"https://b.png", "p2"⟩, ⟨"https://c.png", "p3"⟩,
             ⟨"https://d.png", "p4"⟩, ⟨"https://e.png", "p5"⟩],
          mainImageIndex := 4 })).mainImageIndex <
        (loadFromShareData (generateShareData
        { initialAppState with
          step := Step.preview,
          generatedImages :=
            [⟨"https://a.png", "p1"⟩, ⟨"https://b.png", "p2"⟩, ⟨"https://c.png", "p3"⟩,
             ⟨"https://d.png", "p4"⟩, ⟨"https://e.png", "p5"⟩],
          mainImageIndex := 4 })).generatedImages.length) := by
  refine ⟨by decide, by decide, by decide⟩

theorem retryLoop_error_step (gen : Nat → Except String String × List NetCall)
    (prompt : String) (attempts fuel : Nat) (e : String) (t : List NetCall)
    (h : gen attempts = (Except.error e, t)) (hc : e ≠ creditsMsg)
    (hlt : attempts + 1 < 3) :
    retryLoop gen prompt attempts (fuel + 1) =
      ((retryLoop gen prompt (attempts + 1) fuel).1,
       (retryLoop gen prompt (attempts + 1) fuel).2.1,
       t ++ (retryLoop gen prompt (attempts + 1) fuel).2.2) := by
  by_cases hr : isRateLimitMsg e = true
  · simp [retryLoop, h, hc, hr, hlt]
  · simp [retryLoop, h, hc, hr, hlt, Nat.not_le.mpr hlt]

/-- C1: the per-image retry executor, given a generator that fails (with
non-credits errors) on its first two attempts and succeeds on its third, makes
exactly 3 attempts and returns the success value paired with the original
prompt, not a placeholder; given a generator that raises the credits-exhausted
error, it makes exactly 1 attempt and propagates that error unmodified, with no
retry and no placeholder substitution. -/
theorem retry_executor_attempts (gen gen2 : Nat → Except String String × List NetCall)
    (prompt : String) (e0 e1 u : String) (t0 t1 t2 s0 : List NetCall)
    (h0 : gen 0 = (Except.error e0, t0)) (h1 : gen 1 = (Except.error e1, t1))
    (h2 : gen 2 = (Except.ok u, t2))
    (hc0 : e0 ≠ creditsMsg) (hc1 : e1 ≠ creditsMsg)
    (hcredits : gen2 0 = (Except.error creditsMsg, s0)) :
    retryLoop gen prompt 0 3 = (3, Except.ok ⟨u, prompt⟩, t0 ++ (t1 ++ t2)) ∧
    retryLoop gen2 prompt 0 3 = (1, Except.error creditsMsg, s0) := by
  constructor
  · rw [show (3 : Nat) = 2 + 1 from rfl, retryLoop_error_step gen prompt 0 2 e0 t0 h0 hc0 (by omega)]
    rw [show (2 : Nat) = 1 + 1 from rfl, retryLoop_error_step gen prompt 1 1 e1 t1 h1 hc1 (by omega)]
    simp [retryLoop, h2]
  · simp [retryLoop, hcredits]

/-- Witness for C1: a generator failing twice with a generic error then
succeeding, and a generator raising the credits error immediately. -/
theorem retry_executor_attempts_witness :
    retryLoop (fun k => if k < 2 then (Except.error "boom", []) else (Except.ok "https://ok.png", []))
        "scene" 0 3 = (3, Except.ok ⟨"https://ok.png", "scene"⟩, [] ++ ([] ++ [])) ∧
    retryLoop (fun _ => (Except.error creditsMsg, [NetCall.nanoCreate])) "scene" 0 3 =
      (1, Except.error creditsMsg, [NetCall.nanoCreate]) :=
  retry_executor_attempts
    (fun k => if k < 2 then (Except.error "boom", []) else (Except.ok "https://ok.png", []))
    (fun _ => (Except.error creditsMsg, [NetCall.nanoCreate]))
    "scene" "boom" "boom" "https://ok.png" [] [] [] [NetCall.nanoCreate]
    (by decide) (by decide) (by decide) (by decide) (by decide) (by decide)

theorem getElem?_insertIdx (l : List α) (n j : Nat) (x : α) (h : n ≤ l.length) :
    (l.insertIdx n x)[j]? =
      if j < n then l[j]? else if j = n then some x else l[j - 1]? := by
  induction n generalizing l j with
  | zero =>
    cases j with
    | zero => simp [List.insertIdx_zero]
    | succ k => simp [List.insertIdx_zero]
  | succ n ih =>
    cases l with
    | nil => simp at h
    | cons a as =>
      cases j with
      | zero => simp [List.insertIdx_succ_cons]
      | succ k =>
        have h' : n ≤ as.length := by simpa using h
        simp only [List.insertIdx_succ_cons, List.getElem?_cons_succ, ih as k h']
        by_cases hk : k < n
        · simp [hk, Nat.succ_lt_succ hk]
        · by_cases hk2 : k = n
          · simp [hk, hk2]
          · have hk3 : ¬ k + 1 < n + 1 := by omega
            have hk4 : ¬ k + 1 = n + 1 := by omega
            simp only [hk, hk2, hk3, hk4, if_false]
            have heq : k + 1 - 1 = (k - 1) + 1 := by omega
            rw [heq, List.getElem?_cons_succ]

theorem getElem?_eraseIdx (l : List α) (i j : Nat) (h : i < l.length) :
    (l.eraseIdx i)[j]? = if j < i then l[j]? else l[j + 1]? := by
  induction l generalizing i j with
  | nil => simp at h
  | cons a as ih =>
    cases i with
    | zero => simp [List.eraseIdx_cons_zero]
    | succ i =>
      cases j with
      | zero => simp [List.eraseIdx_cons_succ]
      | succ k =>
        have h' : i < as.length := by simpa using h
        simp only [List.eraseIdx_cons_succ, List.getElem?_cons_succ, ih i k h']
        by_cases hk : k < i
        · simp [hk, Nat.succ_lt_succ hk]
        · have hk2 : ¬ k + 1 < i + 1 := by omega
          simp [hk, hk2]

theorem perm_insertIdx (x : α) (l : List α) (n : Nat) (h : n ≤ l.length) :
    (l.insertIdx n x).Perm (x :: l) := by
  induction n generalizing l with
  | zero => simp [List.insertIdx_zero]
  | succ n ih =>
    cases l with
    | nil => simp at h
    | cons a as =>
      have h' : n ≤ as.length := by simpa using h
      rw [List.insertIdx_succ_cons]
      exact ((ih as h').cons a).trans (List.Perm.swap x a as)

theorem perm_cons_eraseIdx (l : List α) (i : Nat) (d : α) (h : i < l.length) :
    l.Perm (l.getD i d :: l.eraseIdx i) := by
  induction l generalizing i with
  | nil => simp at h
  | cons a as ih =>
    cases i with
    | zero => simp [List.eraseIdx_cons_zero]
    | succ i =>
      have h' : i < as.length := by simpa using h
      rw [List.eraseIdx_cons_succ, List.getD_cons_succ]
      exact ((ih i h').cons a).trans (List.Perm.swap _ a _)

/-- C6: every reorder with valid `fromIndex`/`toIndex` permutes the image list
(no loss or duplication), and the re-derived `mainImageIndex` denotes the same
logical image the old `mainImageIndex` denoted. -/
theorem image_reorder_permutes_and_tracks_main (st : AppState) (fromIdx toIdx : Nat)
    (hf : fromIdx < st.generatedImages.length) (ht : toIdx < st.generatedImages.length)
    (hm : st.mainImageIndex < st.generatedImages.length) :
    ((handleImageReorder st fromIdx toIdx).generatedImages).Perm st.generatedImages ∧
    (handleImageReorder st fromIdx toIdx).generatedImages[
        (handleImageReorder st fromIdx toIdx).mainImageIndex]? =
      st.generatedImages[st.mainImageIndex]? := by
  have hlen_e : (st.generatedImages.eraseIdx fromIdx).length =
      st.generatedImages.length - 1 := List.length_eraseIdx_of_lt hf
  have ht' : toIdx ≤ (st.generatedImages.eraseIdx fromIdx).length := by omega
  have hx : st.generatedImages[fromIdx]? =
      some (st.generatedImages.getD fromIdx defaultImage) := by
    rw [getD_eq_getElemD, List.getElem?_eq_getElem hf]
    rfl
  constructor
  · refine ((perm_insertIdx _ _ _ ht').trans ?_)
    exact (perm_cons_eraseIdx st.generatedImages fromIdx defaultImage hf).symm
  · show (moveImage st.generatedImages fromIdx toIdx)[
        remapMainIndex fromIdx toIdx st.mainImageIndex]? = _
    unfold moveImage
    by_cases h1 : fromIdx = st.mainImageIndex
    · have hremap : remapMainIndex fromIdx toIdx st.mainImageIndex = toIdx := by
        unfold remapMainIndex
        rw [if_pos h1]
      rw [hremap, getElem?_insertIdx _ _ _ _ ht', if_neg (by omega), if_pos rfl, ← h1, hx]
    · by_cases h2 : fromIdx < st.mainImageIndex ∧ st.mainImageIndex ≤ toIdx
      · have hremap : remapMainIndex fromIdx toIdx st.mainImageIndex =
            st.mainImageIndex - 1 := by
          unfold remapMainIndex
          rw [if_neg h1, if_pos h2]
        rw [hremap, getElem?_insertIdx _ _ _ _ ht', if_pos (by omega),
          getElem?_eraseIdx _ _ _ hf, if_neg (by omega)]
        congr 1
        omega
      · by_cases h3 : st.mainImageIndex < fromIdx ∧ toIdx ≤ st.mainImageIndex
        · have hremap : remapMainIndex fromIdx toIdx st.mainImageIndex =
              st.mainImageIndex + 1 := by
            unfold remapMainIndex
            rw [if_neg h1, if_neg h2, if_pos h3]
          rw [hremap, getElem?_insertIdx _ _ _ _ ht', if_neg (by omega), if_neg (by omega),
            getElem?_eraseIdx _ _ _ hf, if_pos (by omega)]
          simp
        · have hremap : remapMainIndex fromIdx toIdx st.mainImageIndex =
              st.mainImageIndex := by
            unfold remapMainIndex
            rw [if_neg h1, if_neg h2, if_neg h3]
          rw [hremap]
          by_cases h4 : fromIdx < st.mainImageIndex
          · have h5 : ¬ st.mainImageIndex ≤ toIdx := fun hc => h2 ⟨h4, hc⟩
            rw [getElem?_insertIdx _ _ _ _ ht', if_neg (by omega), if_neg (by omega),
              getElem?_eraseIdx _ _ _ hf, if_neg (by omega)]
            congr 1
            omega
          · have h6 : st.mainImageIndex < fromIdx := by omega
            have h7 : ¬ toIdx ≤ st.mainImageIndex := fun hc => h3 ⟨h6, hc⟩
            rw [getElem?_insertIdx _ _ _ _ ht', if_pos (by omega),
              getElem?_eraseIdx _ _ _ hf, if_pos (by omega)]

/-- Witness for C6: moving index 0 to index 2 in a three-image list while the
main image is index 1. -/
theorem image_reorder_permutes_and_tracks_main_witness :
    ((handleImageReorder
        { initialAppState with
          generatedImages := [⟨"https://a.png", "pa"⟩, ⟨"https://b.png", "pb"⟩,
            ⟨"https://c.png", "pc"⟩],
          mainImageIndex := 1 } 0 2).generatedImages)[
      (handleImageReorder
        { initialAppState with
          generatedImages := [⟨"https://a.png", "pa"⟩, ⟨"https://b.png", "pb"⟩,
            ⟨"https://c.png", "pc"⟩],
          mainImageIndex := 1 } 0 2).mainImageIndex]? =
      ([⟨"https://a.png", "pa"⟩, ⟨"https://b.png", "pb"⟩,
        ⟨"https://c.png", "pc"⟩] : List GeneratedImage)[1]? :=
  (image_reorder_permutes_and_tracks_main
    { initialAppState with
      generatedImages := [⟨"https://a.png", "pa"⟩, ⟨"https://b.png", "pb"⟩,
        ⟨"https://c.png", "pc"⟩],
      mainImageIndex := 1 } 0 2 (by decide) (by decide) (by decide)).2

theorem takeNextImages_snd (imgs : List GeneratedImage) (c n : Nat) :
    (takeNextImages imgs c n).2 = c + n := by
  induction n generalizing c with
  | zero => simp [takeNextImages]
  | succ n ih =>
    simp only [takeNextImages, getNextImage, ih]
    omega

theorem takeNextImages_length (imgs : List GeneratedImage) (c n : Nat) :
    (takeNextImages imgs c n).1.length = n := by
  induction n generalizing c with
  | zero => simp [takeNextImages]
  | succ n ih => simp [takeNextImages, ih]

theorem takeNextImages_indices (imgs : List GeneratedImage) (c n : Nat) :
    ((takeNextImages imgs c n).1).map AllocSlot.index =
      (List.range n).map (fun i => (c + i) % imgs.length) := by
  induction n generalizing c with
  | zero => simp [takeNextImages]
  | succ n ih =>
    simp only [takeNextImages, getNextImage, List.map_cons, ih,
      List.range_succ_eq_map, List.map_map]
    refine congrArg₂ _ (by simp) ?_
    refine List.map_congr_left ?_
    intro i _
    simp only [Function.comp_apply]
    congr 1
    omega

theorem takeNextImages_add (imgs : List GeneratedImage) (c m n : Nat) :
    (takeNextImages imgs c (m + n)).1 =
      (takeNextImages imgs c m).1 ++ (takeNextImages imgs (c + m) n).1 := by
  induction m generalizing c with
  | zero => simp [takeNextImages]
  | succ m ih =>
    have heq : m + 1 + n = (m + n) + 1 := by omega
    rw [heq]
    simp only [takeNextImages, getNextImage, ih, List.cons_append]
    have heq2 : c + 1 + m = c + (m + 1) := by omega
    rw [heq2]

theorem mem_takeNextImages_index (imgs : List GeneratedImage) (c n : Nat) (s : AllocSlot)
    (hs : s ∈ (takeNextImages imgs c n).1) : ∃ k, s.index = k % imgs.length := by
  have hmem : s.index ∈ ((takeNextImages imgs c n).1).map AllocSlot.index :=
    List.mem_map_of_mem _ hs
  rw [takeNextImages_indices] at hmem
  obtain ⟨i, _, hi⟩ := List.mem_map.mp hmem
  exact ⟨c + i, hi.symm⟩

theorem allocate_demand_eq (imgs : List GeneratedImage) (promo : Bool) (feats : List Feature) :
    demandSlots (allocateSlots imgs promo feats) =
      (takeNextImages imgs 0 ((if promo then 1 else 0) + 2 + feats.length + 1)).1 := by
  cases promo with
  | false =>
    have heq : (if (false : Bool) = true then 1 else 0) + 2 + feats.length + 1 =
        2 + (feats.length + 1) := by norm_num; omega
    rw [heq, takeNextImages_add imgs 0 2 (feats.length + 1),
      takeNextImages_add imgs 2 feats.length 1]
    simp [allocateSlots, demandSlots, takeNextImages, getNextImage, takeNextImages_snd]
  | true =>
    have heq : (if (true : Bool) = true then 1 else 0) + 2 + feats.length + 1 =
        3 + (feats.length + 1) := by norm_num; omega
    rw [heq, takeNextImages_add imgs 0 3 (feats.length + 1),
      takeNextImages_add imgs 3 feats.length 1]
    simp [allocateSlots, demandSlots, takeNextImages, getNextImage, takeNextImages_snd]

theorem allocate_remaining_eq (imgs : List GeneratedImage) (promo : Bool)
    (feats : List Feature) :
    (allocateSlots imgs promo feats).descriptionExtraImages ++
        (allocateSlots imgs promo feats).detailViewImages =
      (takeNextImages imgs ((if promo then 1 else 0) + 2 + feats.length + 1)
        (imgs.length - ((if promo then 1 else 0) + 2 + feats.length + 1))).1 ∧
    (allocateSlots imgs promo feats).descriptionExtraImages =
      (takeNextImages imgs ((if promo then 1 else 0) + 2 + feats.length + 1)
          (imgs.length - ((if promo then 1 else 0) + 2 + feats.length + 1))).1.take
        ((imgs.length - ((if promo then 1 else 0) + 2 + feats.length + 1)) -
          min 3 (imgs.length - ((if promo then 1 else 0) + 2 + feats.length + 1))) ∧
    (allocateSlots imgs promo feats).detailViewImages =
      (takeNextImages imgs ((if promo then 1 else 0) + 2 + feats.length + 1)
          (imgs.length - ((if promo then 1 else 0) + 2 + feats.length + 1))).1.drop
        ((imgs.length - ((if promo then 1 else 0) + 2 + feats.length + 1)) -
          min 3 (imgs.length - ((if promo then 1 else 0) + 2 + feats.length + 1))) := by
  cases promo with
  | false =>
    simp only [allocateSlots, getNextImage, takeNextImages_snd, takeNextImages_length,
      Bool.false_eq_true, if_false]
    have heq : (0 : Nat) + 1 + 1 + feats.length + 1 = 0 + 2 + feats.length + 1 := by omega
    rw [heq]
    exact ⟨List.take_append_drop _ _, trivial, trivial⟩
  | true =>
    simp only [allocateSlots, getNextImage, takeNextImages_snd, takeNextImages_length, if_true]
    have heq : (0 : Nat) + 1 + 1 + 1 + feats.length + 1 = 1 + 2 + feats.length + 1 := by omega
    rw [heq]
    exact ⟨List.take_append_drop _ _, trivial, trivial⟩

/-- C3: every slot produced by the allocator carries a pool index in `[0, M)`
when the pool is non-empty, and in the concrete case of a 5-image pool with no
promotion and 3 copy features the demanded slots number 6 with pool indices
`[0, 1, 2, 3, 4, 0]`, so index 0 is reused via modulo wraparound. -/
theorem slot_allocator_indices_bounded (imgs : List GeneratedImage) (promo : Bool)
    (feats : List Feature) (h : 1 ≤ imgs.length) :
    (∀ s ∈ allSlots (allocateSlots imgs promo feats), s.index < imgs.length) ∧
    (demandSlots (allocateSlots (examplePool 5) false (exampleFeatures 3))).map
        AllocSlot.index = [0, 1, 2, 3, 4, 0] ∧
    (demandSlots (allocateSlots (examplePool 5) false (exampleFeatures 3))).length = 6 ∧
    ¬ ((demandSlots (allocateSlots (examplePool 5) false (exampleFeatures 3))).map
        AllocSlot.index).Nodup := by
  refine ⟨?_, by decide, by decide, by decide⟩
  intro s hs
  have hform : ∃ k, s.index = k % imgs.length := by
    rw [allSlots, List.append_assoc] at hs
    rcases List.mem_append.mp hs with hd | hr
    · rw [allocate_demand_eq] at hd
      exact mem_takeNextImages_index _ _ _ _ hd
    · rw [(allocate_remaining_eq imgs promo feats).1] at hr
      exact mem_takeNextImages_index _ _ _ _ hr
  obtain ⟨k, hk⟩ := hform
  rw [hk]
  exact Nat.mod_lt _ (by omega)

/-- Witness for C3 at the concrete 5-image pool: the hero slot's pool index is
in range. -/
theorem slot_allocator_indices_bounded_witness :
    (1 ≤ (examplePool 5).length) ∧
    (allocateSlots (examplePool 5) false (exampleFeatures 3)).heroImage.index <
      (examplePool 5).length :=
  ⟨by decide,
   (slot_allocator_indices_bounded (examplePool 5) false (exampleFeatures 3) (by decide)).1
     (allocateSlots (examplePool 5) false (exampleFeatures 3)).heroImage (by decide)⟩

/-- C4 (counterexample): for a 10-image pool, no promotion and 3 features, the 4
remaining pool images have indices `[6, 7, 8, 9]`; the detail-gallery region
receives the LAST three of them (indices `[7, 8, 9]`), so it is not the first 3
encountered (`[6, 7, 8]`) as the claim states. -/
theorem slot_allocator_detail_not_first_three :
    ((allocateSlots (examplePool 10) false (exampleFeatures 3)).detailViewImages.map
        AllocSlot.index = [7, 8, 9]) ∧
    (((takeNextImages (examplePool 10) 6 4).1.take 3).map AllocSlot.index = [6, 7, 8]) ∧
    (allocateSlots (examplePool 10) false (exampleFeatures 3)).detailViewImages ≠
      (takeNextImages (examplePool 10) 6 4).1.take 3 := by
  refine ⟨by decide, by decide, by decide⟩

/-- C4 (amended): the allocator assigns pool images in the fixed order optional
promotion slot (present iff the promotion flag is set), hero, lifestyle, one
slot per copy feature, usage context — at consecutive cursor positions taken
modulo the pool size — and of the remaining pool images the LAST at most 3 go
to the detail-gallery region while the earlier ones go to the extra-gallery
region; the whole mapping is a plain function of the pool, the feature list of
the copy, and the promotion flag. -/
theorem slot_allocator_fixed_order (imgs : List GeneratedImage) (promo : Bool)
    (feats : List Feature) :
    ((allocateSlots imgs promo feats).promotionImage.isSome = promo) ∧
    ((demandSlots (allocateSlots imgs promo feats)).map AllocSlot.index =
      (List.range ((if promo then 1 else 0) + 2 + feats.length + 1)).map
        (fun i => i % imgs.length)) ∧
    ((allocateSlots imgs promo feats).featureImages.length = feats.length) ∧
    ((takeNextImages imgs ((if promo then 1 else 0) + 2 + feats.length + 1)
        (imgs.length - ((if promo then 1 else 0) + 2 + feats.length + 1))).1.map
          AllocSlot.index =
      (List.range (imgs.length - ((if promo then 1 else 0) + 2 + feats.length + 1))).map
        (fun i => (((if promo then 1 else 0) + 2 + feats.length + 1) + i) % imgs.length)) ∧
    ((allocateSlots imgs promo feats).descriptionExtraImages =
      (takeNextImages imgs ((if promo then 1 else 0) + 2 + feats.length + 1)
          (imgs.length - ((if promo then 1 else 0) + 2 + feats.length + 1))).1.take
        ((imgs.length - ((if promo then 1 else 0) + 2 + feats.length + 1)) -
          min 3 (imgs.length - ((if promo then 1 else 0) + 2 + feats.length + 1)))) ∧
    ((allocateSlots imgs promo feats).detailViewImages =
      (takeNextImages imgs ((if promo then 1 else 0) + 2 + feats.length + 1)
          (imgs.length - ((if promo then 1 else 0) + 2 + feats.length + 1))).1.drop
        ((imgs.length - ((if promo then 1 else 0) + 2 + feats.length + 1)) -
          min 3 (imgs.length - ((if promo then 1 else 0) + 2 + feats.length + 1)))) := by
  refine ⟨?_, ?_, ?_, ?_, (allocate_remaining_eq imgs promo feats).2.1,
    (allocate_remaining_eq imgs promo feats).2.2⟩
  · cases promo <;> simp [allocateSlots]
  · rw [allocate_demand_eq, takeNextImages_indices]
    refine List.map_congr_left ?_
    intro i _
    simp
  · simp [allocateSlots, takeNextImages_length]
  · rw [takeNextImages_indices]

theorem autoSave_qualifying (h : UndoState) (s : AppState) (hsup : h.suppress = false)
    (hq : s.step = Step.preview ∧ 0 < s.generatedImages.length) :
    autoSave h s =
      { timeline := sliceLast 50 (h.timeline.take (h.cursor + 1).toNat ++ [s]),
        cursor := min (h.cursor + 1) 49,
        suppress := false } := by
  simp [autoSave, hsup, hq]

theorem editStep_counts (a : HistoryApp) (s : AppState)
    (hsup : a.hist.suppress = false)
    (hcur : a.hist.cursor = (a.hist.timeline.length : Int) - 1)
    (hq : s.step = Step.preview ∧ 0 < s.generatedImages.length) :
    (editStep a s).hist.timeline.length = min (a.hist.timeline.length + 1) 50 ∧
    (editStep a s).hist.cursor = ((editStep a s).hist.timeline.length : Int) - 1 ∧
    (editStep a s).hist.suppress = false := by
  have htn : (a.hist.cursor + 1).toNat = a.hist.timeline.length := by omega
  have hlen : (editStep a s).hist.timeline.length = min (a.hist.timeline.length + 1) 50 := by
    simp only [editStep, autoSave_qualifying _ _ hsup hq, sliceLast_length,
      List.length_append, List.length_take, htn, List.length_cons, List.length_nil]
    omega
  refine ⟨hlen, ?_, by simp [editStep, autoSave_qualifying _ _ hsup hq]⟩
  have hcur2 : (editStep a s).hist.cursor = min (a.hist.cursor + 1) 49 := by
    simp [editStep, autoSave_qualifying _ _ hsup hq]
  rw [hcur2, hlen]
  omega

theorem editFold (edits : List AppState)
    (hq : ∀ s ∈ edits, s.step = Step.preview ∧ 0 < s.generatedImages.length) :
    ∀ a : HistoryApp, a.hist.suppress = false →
      a.hist.cursor = (a.hist.timeline.length : Int) - 1 → a.hist.timeline.length ≤ 50 →
      (edits.foldl editStep a).hist.timeline.length =
          min (a.hist.timeline.length + edits.length) 50 ∧
      (edits.foldl editStep a).hist.cursor =
          ((edits.foldl editStep a).hist.timeline.length : Int) - 1 ∧
      (edits.foldl editStep a).hist.suppress = false := by
  induction edits with
  | nil =>
    intro a hsup hcur hlen
    simp only [List.foldl_nil, List.length_nil]
    exact ⟨by omega, hcur, hsup⟩
  | cons s rest ih =>
    intro a hsup hcur hlen
    have hqs : s.step = Step.preview ∧ 0 < s.generatedImages.length :=
      hq s (List.mem_cons_self s rest)
    have hstep := editStep_counts a s hsup hcur hqs
    have hrest := ih (fun x hx => hq x (List.mem_cons_of_mem s hx)) (editStep a s)
      hstep.2.2 hstep.2.1 (by omega)
    simp only [List.foldl_cons, List.length_cons]
    refine ⟨?_, hrest.2.1, hrest.2.2⟩
    rw [hrest.1, hstep.1]
    omega

/-- C5: starting from an empty timeline, `N` sequential preview-state edits
produce a timeline of length `min(N, 50)` with the cursor at the last index; an
edit on an unsuppressed state first truncates every snapshot after the cursor
and appends, keeping only the last 50 entries (so the timeline never exceeds
50); undo at cursor 0 is a no-op; redo at the tail is a no-op. -/
theorem history_manager_bounded_branch_discard (edits : List AppState)
    (hq : ∀ s ∈ edits, s.step = Step.preview ∧ 0 < s.generatedImages.length)
    (a : HistoryApp) (s : AppState)
    (hsup : a.hist.suppress = false)
    (hq2 : s.step = Step.preview ∧ 0 < s.generatedImages.length) :
    ((edits.foldl editStep emptyHistoryApp).hist.timeline.length = min edits.length 50 ∧
     (edits.foldl editStep emptyHistoryApp).hist.cursor =
       ((edits.foldl editStep emptyHistoryApp).hist.timeline.length : Int) - 1) ∧
    ((editStep a s).hist.timeline =
      sliceLast 50 (a.hist.timeline.take (a.hist.cursor + 1).toNat ++ [s])) ∧
    ((editStep a s).hist.timeline.length ≤ 50) ∧
    (∀ b : HistoryApp, b.hist.cursor = 0 → undoStep b = b) ∧
    (∀ b : HistoryApp, b.hist.cursor = (b.hist.timeline.length : Int) - 1 →
      redoStep b = b) := by
  refine ⟨?_, ?_, ?_, ?_, ?_⟩
  · have := editFold edits hq emptyHistoryApp rfl (by simp [emptyHistoryApp]) (by simp [emptyHistoryApp])
    refine ⟨?_, this.2.1⟩
    rw [this.1]
    simp [emptyHistoryApp]
  · simp [editStep, autoSave_qualifying _ _ hsup hq2]
  · simp [editStep, autoSave_qualifying _ _ hsup hq2, sliceLast_length]
  · intro b hb
    simp [undoStep, hb]
  · intro b hb
    simp only [redoStep, hb]
    rw [if_neg (by omega)]

/-- Witness for C5: two qualifying edits from the empty history. -/
theorem history_manager_bounded_branch_discard_witness :
    (([previewState "https://a.png", previewState "https://b.png"] :
        List AppState).foldl editStep emptyHistoryApp).hist.timeline.length =
      min 2 50 := by
  have h := history_manager_bounded_branch_discard
    [previewState "https://a.png", previewState "https://b.png"]
    (by
      intro s hs
      simp only [List.mem_cons, List.not_mem_nil, or_false] at hs
      rcases hs with h1 | h2 <;> subst_vars <;> exact ⟨rfl, by simp [previewState]⟩)
    emptyHistoryApp (previewState "https://a.png") rfl
    (by constructor <;> simp [previewState])
  exact h.1.1

theorem chunkList12_nil : chunkList12 ([] : List α) = [] := by
  rw [chunkList12]

theorem chunkList12_ne (l : List α) (h : l ≠ []) :
    chunkList12 l = l.take 12 :: chunkList12 (l.drop 12) := by
  cases l with
  | nil => exact absurd rfl h
  | cons a rest => rw [chunkList12]

theorem chunkList12_flatten_aux : ∀ (N : Nat) (l : List α), l.length ≤ N →
    (chunkList12 l).flatten = l := by
  intro N
  induction N with
  | zero =>
    intro l hl
    have : l = [] := List.length_eq_zero.mp (by omega)
    subst this
    simp [chunkList12_nil]
  | succ N ih =>
    intro l hl
    cases l with
    | nil => simp [chunkList12_nil]
    | cons a rest =>
      have hl2 : rest.length + 1 ≤ N + 1 := by simpa using hl
      rw [chunkList12_ne _ (by simp), List.flatten_cons,
        ih ((a :: rest).drop 12) (by simp only [List.length_drop, List.length_cons]; omega)]
      exact List.take_append_drop _ _

theorem chunkList12_flatten (l : List α) : (chunkList12 l).flatten = l :=
  chunkList12_flatten_aux l.length l (le_refl _)

theorem chunkList12_size_aux : ∀ (N : Nat) (l : List α), l.length ≤ N →
    ∀ c ∈ chunkList12 l, c.length ≤ 12 := by
  intro N
  induction N with
  | zero =>
    intro l hl c hc
    have : l = [] := List.length_eq_zero.mp (by omega)
    subst this
    simp [chunkList12_nil] at hc
  | succ N ih =>
    intro l hl c hc
    cases l with
    | nil => simp [chunkList12_nil] at hc
    | cons a rest =>
      have hl2 : rest.length + 1 ≤ N + 1 := by simpa using hl
      rw [chunkList12_ne _ (by simp)] at hc
      rcases List.mem_cons.mp hc with h1 | h2
      · subst h1
        simp [List.length_take]
      · exact ih _ (by simp only [List.length_drop, List.length_cons]; omega) c h2

theorem runChunkItems_ok (gen : Nat → String → Except String GeneratedImage × List NetCall) :
    ∀ (ps : List String) (base : Nat) (rs : List GeneratedImage),
      promiseAllExcept ((runChunkItems gen base ps).map Prod.fst) = Except.ok rs →
      rs.length = ps.length ∧
      ∀ j, j < ps.length →
        (gen (base + j) (ps.getD j "")).1 = Except.ok (rs.getD j defaultImage) := by
  intro ps
  induction ps with
  | nil =>
    intro base rs h
    simp [runChunkItems, promiseAllExcept] at h
    subst h
    exact ⟨rfl, fun j hj => by simp at hj⟩
  | cons p ps ih =>
    intro base rs h
    simp only [runChunkItems, List.map_cons, promiseAllExcept] at h
    cases hg : (gen base p).1 with
    | error e => rw [hg] at h; cases h
    | ok a =>
      rw [hg] at h
      cases hrest : promiseAllExcept ((runChunkItems gen (base + 1) ps).map Prod.fst) with
      | error e => rw [hrest] at h; cases h
      | ok as =>
        rw [hrest] at h
        cases h
        obtain ⟨hlen, hpos⟩ := ih (base + 1) as hrest
        refine ⟨by simp [hlen], ?_⟩
        intro j hj
        cases j with
        | zero => simpa using hg
        | succ k =>
          have hk : k < ps.length := by simpa using hj
          have := hpos k hk
          have harith : base + (k + 1) = base + 1 + k := by omega
          rw [harith]
          simpa using this

theorem runChunksFrom_ok (gen : Nat → String → Except String GeneratedImage × List NetCall) :
    ∀ (N : Nat) (prompts : List String), prompts.length ≤ N →
    ∀ (base : Nat) (out : List GeneratedImage),
      (runChunksFrom gen base (chunkList12 prompts)).1 = Except.ok out →
      out.length = prompts.length ∧
      ∀ j, j < prompts.length →
        (gen (base + j) (prompts.getD j "")).1 = Except.ok (out.getD j defaultImage) := by
  intro N
  induction N with
  | zero =>
    intro prompts hl base out h
    have : prompts = [] := List.length_eq_zero.mp (by omega)
    subst this
    simp [chunkList12_nil, runChunksFrom] at h
    subst h
    exact ⟨rfl, fun j hj => by simp at hj⟩
  | succ N ih =>
    intro prompts hl base out h
    cases prompts with
    | nil =>
      simp [chunkList12_nil, runChunksFrom] at h
      subst h
      exact ⟨rfl, fun j hj => by simp at hj⟩
    | cons p rest =>
      have hl2 : rest.length + 1 ≤ N + 1 := by simpa using hl
      rw [chunkList12_ne _ (by simp)] at h
      simp only [runChunksFrom] at h
      cases hchunk : promiseAllExcept
          ((runChunkItems gen base ((p :: rest).take 12)).map Prod.fst) with
      | error e => rw [hchunk] at h; cases h
      | ok rs =>
        rw [hchunk] at h
        cases hrest2 : (runChunksFrom gen (base + ((p :: rest).take 12).length)
            (chunkList12 ((p :: rest).drop 12))).1 with
        | error e => rw [hrest2] at h; cases h
        | ok out2 =>
          rw [hrest2] at h
          simp only [Except.map] at h
          cases h
          obtain ⟨hlen1, hpos1⟩ := runChunkItems_ok gen ((p :: rest).take 12) base rs hchunk
          obtain ⟨hlen2, hpos2⟩ := ih ((p :: rest).drop 12)
            (by simp only [List.length_drop, List.length_cons]; omega)
            (base + ((p :: rest).take 12).length) out2 hrest2
          have hplen : (p :: rest).length = rest.length + 1 := rfl
          have hklen : ((p :: rest).take 12).length = min 12 (p :: rest).length := by
            simp [List.length_take]
            omega
          have hdlen : ((p :: rest).drop 12).length = (p :: rest).length - 12 := by
            simp [List.length_drop]
          refine ⟨by simp only [List.length_append]; omega, ?_⟩
          intro j hj
          by_cases hjk : j < rs.length
          · have hj12 : j < 12 := by omega
            have hgetp : ((p :: rest).take 12).getD j "" = (p :: rest).getD j "" := by
              rw [getD_eq_getElemD, getD_eq_getElemD, List.getElem?_take, if_pos hj12]
            have hgeto : (rs ++ out2).getD j defaultImage = rs.getD j defaultImage := by
              rw [getD_eq_getElemD, getD_eq_getElemD, List.getElem?_append_left hjk]
            rw [hgeto, ← hgetp]
            exact hpos1 j (by omega)
          · have hlen12 : (p :: rest).length ≥ 12 := by omega
            have hj12 : 12 ≤ j := by omega
            have hj2 : j - 12 < ((p :: rest).drop 12).length := by omega
            have h12 : 12 + (j - 12) = j := by omega
            have hgetp : ((p :: rest).drop 12).getD (j - 12) "" = (p :: rest).getD j "" := by
              rw [getD_eq_getElemD, getD_eq_getElemD, List.getElem?_drop, h12]
            have hgeto : (rs ++ out2).getD j defaultImage =
                out2.getD (j - rs.length) defaultImage := by
              rw [getD_eq_getElemD, getD_eq_getElemD,
                List.getElem?_append_right (by omega)]
            have := hpos2 (j - 12) hj2
            rw [hgetp] at this
            rw [hgeto]
            have harith : base + ((p :: rest).take 12).length + (j - 12) = base + j := by
              omega
            rw [harith] at this
            have harith2 : j - rs.length = j - 12 := by omega
            rw [harith2]
            exact this

theorem completeInOrder_fold_getElem? (res : Nat → α) :
    ∀ (os : List Nat) (acc : List (Option α)) (j : Nat),
      (os.foldl (fun a k => a.set k (some (res k))) acc)[j]? =
        if j ∈ os ∧ j < acc.length then some (some (res j)) else acc[j]? := by
  intro os
  induction os with
  | nil => simp
  | cons o os ih =>
    intro acc j
    simp only [List.foldl_cons]
    rw [ih (acc.set o (some (res o))) j]
    by_cases h1 : j ∈ os ∧ j < acc.length
    · rw [if_pos (by simpa using h1), if_pos ⟨List.mem_cons_of_mem o h1.1, h1.2⟩]
    · rw [if_neg (by simpa using h1)]
      by_cases h2 : j = o ∧ j < acc.length
      · obtain ⟨rfl, hlt⟩ := h2
        rw [List.getElem?_set_eq_of_lt _ hlt, if_pos ⟨by simp, hlt⟩]
      · by_cases h3 : j = o
        · subst h3
          have hge : acc.length ≤ j := by omega
          rw [List.set_eq_of_length_le hge, if_neg (by omega)]
        · rw [List.getElem?_set_ne (fun hc => h3 hc.symm),
            if_neg (fun hc => h1 ⟨(List.mem_cons.mp hc.1).resolve_left h3, hc.2⟩)]

theorem completeInOrder_perm (n : Nat) (res : Nat → α) (order : List Nat)
    (h : order.Perm (List.range n)) :
    completeInOrder n res order = (List.range n).map (fun j => some (res j)) := by
  apply List.ext_getElem?
  intro j
  unfold completeInOrder
  rw [completeInOrder_fold_getElem? res order (List.replicate n none) j]
  have hmem : j ∈ order ↔ j < n := by
    rw [h.mem_iff, List.mem_range]
  by_cases hj : j < n
  · rw [if_pos ⟨hmem.mpr hj, by simpa using hj⟩, List.getElem?_map,
      List.getElem?_range hj]
    rfl
  · rw [if_neg (by simp [hmem]; omega), List.getElem?_map]
    rw [List.getElem?_eq_none (by simpa using hj), List.getElem?_eq_none (by simp; omega)]
    rfl

/-- C2: the batch scheduler partitions any 14 prompts into consecutive chunks of
sizes 12 and 2 (chunks concatenate back to the input, every chunk holds at most
12 prompts), a run with no abort returns exactly one result per prompt with
output index `i` holding the result of input prompt `i`, and the per-chunk
`Promise.all` result array does not depend on the completion order of the
chunk's items. -/
theorem batch_scheduler_chunks_and_order :
    (∀ l : List String, l.length = 14 → (chunkList12 l).map List.length = [12, 2]) ∧
    (∀ l : List String, (chunkList12 l).flatten = l) ∧
    (∀ l : List String, ∀ c ∈ chunkList12 l, c.length ≤ 12) ∧
    (∀ (gen : Nat → String → Except String GeneratedImage × List NetCall)
        (prompts : List String) (out : List GeneratedImage),
      (runBatched gen prompts).1 = Except.ok out →
      out.length = prompts.length ∧
      ∀ j, j < prompts.length →
        (gen j (prompts.getD j "")).1 = Except.ok (out.getD j defaultImage)) ∧
    (∀ (n : Nat) (res : Nat → GeneratedImage) (order : List Nat),
      order.Perm (List.range n) →
      completeInOrder n res order = (List.range n).map (fun j => some (res j))) := by
  refine ⟨?_, chunkList12_flatten, fun l => chunkList12_size_aux l.length l (le_refl _),
    ?_, completeInOrder_perm⟩
  · intro l hl
    have h1 : l ≠ [] := by intro hc; subst hc; simp at hl
    have h2 : l.drop 12 ≠ [] := by
      intro hc
      have := congrArg List.length hc
      simp [List.length_drop, hl] at this
    rw [chunkList12_ne l h1, chunkList12_ne _ h2]
    have h3 : (l.drop 12).drop 12 = [] := by
      apply List.eq_nil_of_length_eq_zero
      simp [List.length_drop, hl]
    rw [h3]
    simp [List.length_take, List.length_drop, hl, chunkList12]
  · intro gen prompts out h
    have := runChunksFrom_ok gen prompts.length prompts (le_refl _) 0 out h
    refine ⟨this.1, ?_⟩
    intro j hj
    have := this.2 j hj
    simpa using this

/-- Witness for C2: a concrete 14-prompt list chunks into 12 + 2, and a
two-element completion in reversed order still fills slots positionally. -/
theorem batch_scheduler_chunks_and_order_witness :
    (chunkList12 (List.replicate 14 "p")).map List.length = [12, 2] ∧
    completeInOrder 2 (fun _ => defaultImage) [1, 0] =
      (List.range 2).map (fun _ => some defaultImage) :=
  ⟨batch_scheduler_chunks_and_order.1 (List.replicate 14 "p") (by decide),
   batch_scheduler_chunks_and_order.2.2.2.2 2 (fun _ => defaultImage) [1, 0] (by decide)⟩

theorem uploadImageToImgbb_emptyEnv_trace (o : NetOracle) (img : String) :
    (uploadImageToImgbb emptyEnv o img).2 = [] := by
  unfold uploadImageToImgbb
  split_ifs <;> rfl

theorem runNanoTask_emptyEnv (o : NetOracle) (model : String) (input : NanoInput) :
    runNanoTask emptyEnv o model input = (Except.error nanoMissingKeyMsg, []) := rfl

theorem generateSingleScene_emptyEnv (o : NetOracle) (modelName : String)
    (refs : List String) (p ar : String) :
    generateSingleScene emptyEnv o modelName refs p ar =
      (Except.error nanoMissingKeyMsg, []) := by
  unfold generateSingleScene
  have htr : ∀ l ∈ List.take 8
      (refs.map (Prod.snd ∘ fun img => uploadImageToImgbb emptyEnv o img)), l = [] := by
    intro l hl
    obtain ⟨img, _, rfl⟩ := List.mem_map.mp (List.take_subset _ _ hl)
    simpa using uploadImageToImgbb_emptyEnv_trace o img
  simp only [runNanoTask_emptyEnv]
  split_ifs <;> (simp; exact htr)

theorem generateWithRetry_emptyEnv (o : NetOracle) (data : ProductData)
    (prompt : String) (index : Nat) :
    generateWithRetry emptyEnv o data prompt index =
      (Except.ok ⟨getFallbackImage, prompt⟩, []) := by
  have hne : ¬ (nanoMissingKeyMsg = creditsMsg) := by decide
  have hrl : isRateLimitMsg nanoMissingKeyMsg = false := by decide
  unfold generateWithRetry
  simp [retryLoop, generateSingleScene_emptyEnv, hne, hrl]

theorem generateCustomScenePrompts_emptyEnv (o : NetOracle) (data : ProductData)
    (count : Nat) : generateCustomScenePrompts emptyEnv o data count = ([], []) := rfl

theorem generateMarketingCopy_emptyEnv (o : NetOracle) (data : ProductData) :
    generateMarketingCopy emptyEnv o data = (Except.error copyGenFailMsg, []) := rfl

theorem runChunkItems_all_ok (gen : Nat → String → Except String GeneratedImage × List NetCall)
    (f : Nat → String → GeneratedImage)
    (hgen : ∀ i p, gen i p = (Except.ok (f i p), [])) :
    ∀ (c : List String) (base : Nat), ∃ rs,
      promiseAllExcept ((runChunkItems gen base c).map Prod.fst) = Except.ok rs ∧
      ((runChunkItems gen base c).map Prod.snd).flatten = [] := by
  intro c
  induction c with
  | nil => exact fun base => ⟨[], rfl, rfl⟩
  | cons p ps ih =>
    intro base
    obtain ⟨rs, hrs, htr⟩ := ih (base + 1)
    refine ⟨f base p :: rs, ?_, ?_⟩
    · simp [runChunkItems, promiseAllExcept, hgen, hrs]
    · simp [runChunkItems, hgen, htr]

theorem runChunksFrom_all_ok (gen : Nat → String → Except String GeneratedImage × List NetCall)
    (f : Nat → String → GeneratedImage)
    (hgen : ∀ i p, gen i p = (Except.ok (f i p), [])) :
    ∀ (cs : List (List String)) (base : Nat), ∃ out,
      runChunksFrom gen base cs = (Except.ok out, []) := by
  intro cs
  induction cs with
  | nil => exact fun base => ⟨[], rfl⟩
  | cons c cs ih =>
    intro base
    obtain ⟨rs, hrs, htr⟩ := runChunkItems_all_ok gen f hgen c base
    obtain ⟨out, hout⟩ := ih (base + c.length)
    refine ⟨rs ++ out, ?_⟩
    simp [runChunksFrom, hrs, htr, hout, Except.map]

theorem generateVariedScenes_emptyEnv (o : NetOracle) (data : ProductData) :
    ∃ imgs, generateVariedScenes emptyEnv o data = (Except.ok imgs, []) := by
  have hbatch : ∀ selected : List String, ∃ out,
      runBatched (fun i p => generateWithRetry emptyEnv o data p i) selected =
        (Except.ok out, []) := by
    intro selected
    exact runChunksFrom_all_ok _ (fun _ p => ⟨getFallbackImage, p⟩)
      (fun i p => generateWithRetry_emptyEnv o data p i) (chunkList12 selected) 0
  by_cases hp : hasPromotionText data = true
  · obtain ⟨out, hout⟩ := hbatch (promoPrompt data ::
      fallbackPool.take (if data.platform = Platform.coupang then 12 else 9))
    exact ⟨out, by
      simp [generateVariedScenes, generateCustomScenePrompts_emptyEnv, hp, hout]⟩
  · obtain ⟨out, hout⟩ := hbatch
      (fallbackPool.take (if data.platform = Platform.coupang then 12 else 9))
    exact ⟨out, by
      simp [generateVariedScenes, generateCustomScenePrompts_emptyEnv, hp, hout]⟩

/-- C9 (amended): submitting with no stored and no environment credential makes
the pipeline fail immediately — the distinct missing-credential errors are
raised at the key lookups before any request — and no network call is attempted
by any part of the pipeline; however the failure that reaches the submission
handler is the generic copy-generation wrapper message, because
`generateMarketingCopy` catches and rewraps the missing-credential error. -/
theorem no_credentials_rejects_without_network (o : NetOracle) (data : ProductData) :
    (handleInputSubmitPipeline emptyEnv o data).1 = Except.error copyGenFailMsg ∧
    (handleInputSubmitPipeline emptyEnv o data).2 = [] ∧
    getGroqApiKey emptyEnv = Except.error groqMissingKeyMsg ∧
    getNanoBananaApiKey emptyEnv = Except.error nanoMissingKeyMsg := by
  obtain ⟨imgs, hsc⟩ := generateVariedScenes_emptyEnv o data
  refine ⟨?_, ?_, rfl, rfl⟩ <;>
    simp [handleInputSubmitPipeline, generateMarketingCopy_emptyEnv, hsc]

/-- C9 (counterexample): at a concrete credential-free submission the failure
yielded to the submission handler is the generic copy-generation message, not
the distinct missing-credential (`AuthOrConfig`) error of either gateway, even
though no network call was attempted. -/
theorem no_credentials_error_is_wrapped :
    (handleInputSubmitPipeline emptyEnv exampleOracle initialProductData).1 =
      Except.error copyGenFailMsg ∧
    copyGenFailMsg ≠ groqMissingKeyMsg ∧
    copyGenFailMsg ≠ nanoMissingKeyMsg ∧
    (handleInputSubmitPipeline emptyEnv exampleOracle initialProductData).2 = [] := by
  obtain ⟨imgs, hsc⟩ := generateVariedScenes_emptyEnv exampleOracle initialProductData
  refine ⟨?_, by decide, by decide, ?_⟩ <;>
    simp [handleInputSubmitPipeline, generateMarketingCopy_emptyEnv, hsc]

end AiDetailPage
